import Mathlib

/-
  Verification of the Radial Force Layout and Gesture-Interaction Engine
  of the skillSeedGraphBased repository.

  The definitions below are a shallow embedding of the engine code in
  src/SkillSeedMobile/components/GraphView.tsx (the React Native
  implementation, which contains the full gesture controller and the
  hit-testers), together with the shared constants from src/constants.ts
  and the data model from src/types.ts.  JavaScript numbers are modelled
  as real numbers; Math.random() results are passed in explicitly as a
  stream of real numbers.  React state and the mirroring refs
  (transformRef and friends) are collapsed into a single state record:
  the component synchronises the refs with the state via an effect after
  every event, and the model applies that synchronisation eagerly.
-/

noncomputable section

/-- Difficulty enum from src/types.ts. -/
inductive Difficulty where
  | Easy
  | Medium
  | Hard
deriving DecidableEq

/-- DIFFICULTY_LEVELS from src/constants.ts: [Easy, Medium, Hard]. -/
def DIFFICULTY_LEVELS : List Difficulty := [.Easy, .Medium, .Hard]

/-- The position of a difficulty level within DIFFICULTY_LEVELS. -/
def difficultyIndex : Difficulty → ℕ
  | .Easy => 0
  | .Medium => 1
  | .Hard => 2

/-- The fields of the Node record (src/types.ts) used by the engine. -/
structure Node where
  id : String
  title : String
  tags : List String
  difficulty : Difficulty
  links : List String

/-- The fields of the Tag record (src/types.ts) used by the engine. -/
structure Tag where
  name : String
  color : String

/-- Modelled from the spec: GraphView imports isUnassigned from a utils
module that is not present under src/.  The spec's data model states
that a node with empty tags is the "unassigned" category, and its
glossary defines Unassigned as "a node with no tags". -/
def isUnassigned (n : Node) : Bool := n.tags.isEmpty

/-- SimulationNode (GraphView.tsx lines 24-29): a Node augmented with a
simulation position, an optional fixed position and an optional cached
target position. -/
structure SimNode extends Node where
  x : ℝ
  y : ℝ
  fx : Option ℝ := none
  fy : Option ℝ := none
  targetX : Option ℝ := none
  targetY : Option ℝ := none

/-- The isMobile flag (GraphView.tsx line 142): width < 640. -/
def isMobile (w : ℝ) : Bool := w < 640

/-- The viewport margin (GraphView.tsx line 143). -/
def margin (w : ℝ) : ℝ := if isMobile w then 25 else 40

/-- The sector outer radius (GraphView.tsx line 144):
min(width, height) / 2 - margin. -/
def outerRadius (w h : ℝ) : ℝ := min w h / 2 - margin w

/-- The radius of the outer ring for unassigned nodes
(GraphView.tsx line 145). -/
def unassignedRadius (w h : ℝ) : ℝ := outerRadius w h + (if isMobile w then 60 else 80)

/-- The drawn node radius (GraphView.tsx line 150). -/
def nodeRadius (w : ℝ) : ℝ := if isMobile w then 6 else 8

/-- The collision radius (GraphView.tsx line 151). -/
def collisionRadius (w : ℝ) : ℝ := if isMobile w then 10 else 14

/-- The step of a d3 band scale with zero padding: the range length
divided by the domain size (at least one, following d3's
Math.max(1, n) guard). -/
def bandwidth (n : ℕ) (r0 r1 : ℝ) : ℝ := (r1 - r0) / max n 1

/-- A d3 scaleBand with zero padding over the given ordered domain and
range: a domain value at index i is mapped to r0 + i * bandwidth, and a
value outside the domain is mapped to none (d3 returns undefined). -/
def scaleBand {α : Type} [DecidableEq α] (domain : List α) (r0 r1 : ℝ) (v : α) : Option ℝ :=
  (domain.findIdx? (fun a => a = v)).map fun i => r0 + (i : ℝ) * bandwidth domain.length r0 r1

/-- The radial scale (GraphView.tsx lines 364-366): a band scale over
DIFFICULTY_LEVELS with range [radius * 0.2, radius]. -/
def radialScale (w h : ℝ) (d : Difficulty) : Option ℝ :=
  scaleBand DIFFICULTY_LEVELS (outerRadius w h * 0.2) (outerRadius w h) d

/-- The visible tag list (GraphView.tsx lines 369-371): tags whose
visibility entry is not false.  The visibility map is modelled as a
Boolean-valued function (true means shown, matching the source's
"visibleTagsState[t.name] !== false" reading where a missing entry
counts as shown). -/
def visibleTagsList (tags : List Tag) (visibleTagsState : String → Bool) : List Tag :=
  tags.filter fun t => visibleTagsState t.name

/-- The domain of the angular scale: the names of the visible tags in
display order. -/
def angularDomain (tags : List Tag) (visibleTagsState : String → Bool) : List String :=
  (visibleTagsList tags visibleTagsState).map Tag.name

/-- The angular scale (GraphView.tsx lines 373-375): a band scale over
the visible tag names with range [0, 2 * pi]. -/
def angularScale (domain : List String) (t : String) : Option ℝ :=
  scaleBand domain 0 (2 * Real.pi) t

/-- The view transform state (GraphView.tsx line 110):
pan offset (x, y) and zoom scale k, initially (0, 0, 1). -/
structure Transform where
  x : ℝ
  y : ℝ
  k : ℝ

/-- Truthiness of the activeTag prop (a JavaScript string or null):
null and the empty string are falsy. -/
def truthy : Option String → Bool
  | none => false
  | some s => s ≠ ""

/-- Whether the active tag's tags.includes check succeeds
(GraphView.tsx line 179). -/
def includesActive : Option String → List String → Bool
  | some s, tags => tags.contains s
  | none, _ => false

/-- The active-tag filter of the node hit-tester (GraphView.tsx line
179): a node is skipped iff activeTag is truthy and the node's tag list
does not include it. -/
def tagFilterPass (activeTag : Option String) (tags : List String) : Bool :=
  !(truthy activeTag && !includesActive activeTag tags)

/-- The per-node hit predicate of findNodeAt (GraphView.tsx lines
179-185): the node passes the active-tag filter and the squared
distance from the inverse-transformed pointer is below the squared hit
radius. -/
def nodeHit (graphX graphY hitRadius : ℝ) (activeTag : Option String) (node : SimNode) : Bool :=
  tagFilterPass activeTag node.tags &&
    decide ((graphX - node.x) * (graphX - node.x) + (graphY - node.y) * (graphY - node.y)
      < hitRadius * hitRadius)

/-- The node hit-tester findNodeAt (GraphView.tsx lines 154-188).  The
pointer coordinate is inverse-transformed into graph space, and the
simulation nodes are scanned from the last to the first (the top-most
rendered node wins); the source returns the matching array element and
this model returns its index, which identifies the same node. -/
def findNodeAt (w h : ℝ) (activeTag : Option String) (simNodes : List SimNode)
    (t : Transform) (x y : ℝ) : Option ℕ :=
  let cx := w / 2
  let cy := h / 2
  let hitRadius := nodeRadius w * 3
  let graphX := (x - cx - t.x) / t.k
  let graphY := (y - cy - t.y) / t.k
  (List.range simNodes.length).reverse.find? fun i =>
    match simNodes[i]? with
    | some node => nodeHit graphX graphY hitRadius activeTag node
    | none => false

/-- JavaScript Math.atan2(y, x): the argument of the complex number
x + y*i, valued in (-pi, pi] and 0 at the origin. -/
def atan2 (y x : ℝ) : ℝ := Complex.arg { re := x, im := y }

/-- The sector hit-tester findTagAt (GraphView.tsx lines 191-238).  The
pointer is inverse-transformed into graph space and converted to polar
form; the angle convention is atan2 plus pi/2 (12 o'clock origin),
normalized into [0, 2*pi) by a single conditional shift; points beyond
the sector outer radius match nothing, otherwise the visible tag bands
are scanned in order.  The angularScaleRef is always populated when a
gesture can occur, so the null guard on it is dropped. -/
def findTagAt (w h : ℝ) (domain : List String) (t : Transform) (x y : ℝ) : Option String :=
  let cx := w / 2
  let cy := h / 2
  let graphX := (x - cx - t.x) / t.k
  let graphY := (y - cy - t.y) / t.k
  let r := Real.sqrt (graphX * graphX + graphY * graphY)
  let angle0 := atan2 graphY graphX + Real.pi / 2
  let angle := if angle0 < 0 then angle0 + 2 * Real.pi else angle0
  if r > outerRadius w h then none
  else domain.find? fun tagName =>
    let start := (angularScale domain tagName).getD 0
    decide (start ≤ angle ∧ angle < start + bandwidth domain.length 0 (2 * Real.pi))

/-- The screen position at which a simulation node is rendered
(GraphView.tsx line 536): the group transform translates by the
viewport center plus the pan offset and then scales by k. -/
def renderPos (w h : ℝ) (t : Transform) (n : SimNode) : ℝ × ℝ :=
  (w / 2 + t.x + t.k * n.x, h / 2 + t.y + t.k * n.y)

/-- Whether the zoomed (single category focused) mode is active
(GraphView.tsx line 148): activeTag is truthy and not the UNASSIGNED
sentinel. -/
def isZoomedFlag (activeTag : Option String) : Bool :=
  truthy activeTag && !(activeTag == some "UNASSIGNED")

/-- The per-node seeding step of the layout seeder (GraphView.tsx lines
422-451).  r1 and r2 are the two Math.random() samples drawn for this
node (each in [0, 1)). -/
def seedNode (w h : ℝ) (showDifficulty : Bool) (isZoomed : Bool) (domain : List String)
    (unassignedNodes : List Node) (node : Node) (r1 r2 : ℝ) : SimNode :=
  let radius := outerRadius w h
  if isUnassigned node then
    let unassignedIndex := unassignedNodes.findIdx fun n => n.id = node.id
    let baseAngle := 2 * Real.pi * unassignedIndex / max unassignedNodes.length 1
    { node with
      x := unassignedRadius w h * Real.cos (baseAngle - Real.pi / 2) + (r1 - 0.5) * 20
      y := unassignedRadius w h * Real.sin (baseAngle - Real.pi / 2) + (r2 - 0.5) * 20 }
  else
    let angle := (angularScale domain (node.tags.headD "")).getD 0
      + bandwidth domain.length 0 (2 * Real.pi) / 2
    let r := if showDifficulty
      then (radialScale w h node.difficulty).getD 0
        + bandwidth DIFFICULTY_LEVELS.length (radius * 0.2) radius / 2
      else radius * 0.6
    { node with
      targetX := some (r * Real.cos (angle - Real.pi / 2))
      targetY := some (r * Real.sin (angle - Real.pi / 2))
      x := if isZoomed then (r1 - 0.5) * 50
        else r * Real.cos (angle - Real.pi / 2) + (r1 - 0.5) * 10
      y := if isZoomed then (r2 - 0.5) * 50
        else r * Real.sin (angle - Real.pi / 2) + (r2 - 0.5) * 10 }

/-- The layout seeder (GraphView.tsx lines 407-451): unassigned nodes
first, then the tagged nodes whose primary tag is visible; each node is
seeded with its two random samples taken from the stream rand in call
order. -/
def initialNodes (w h : ℝ) (showDifficulty : Bool) (activeTag : Option String)
    (tags : List Tag) (visibleTagsState : String → Bool) (nodes : List Node)
    (rand : ℕ → ℝ) : List SimNode :=
  let unassignedNodes := nodes.filter isUnassigned
  let taggedNodes := nodes.filter fun n =>
    !isUnassigned n && visibleTagsState (n.tags.headD "")
  let activeNodes := unassignedNodes ++ taggedNodes
  let domain := angularDomain tags visibleTagsState
  activeNodes.enum.map fun p =>
    seedNode w h showDifficulty (isZoomedFlag activeTag) domain unassignedNodes p.2
      (rand (2 * p.1)) (rand (2 * p.1 + 1))

/-- The x-attraction target of the overview-mode forceX
(GraphView.tsx lines 472-474). -/
def forceXTarget (n : SimNode) : ℝ :=
  if isUnassigned n.toNode then 0 else n.targetX.getD 0

/-- The strength accessor of the overview-mode forceX
(GraphView.tsx line 474). -/
def forceXStrength (showDifficulty : Bool) (n : SimNode) : ℝ :=
  if isUnassigned n.toNode then 0 else if showDifficulty then 0.2 else 0.05

/-- The y-attraction target of the overview-mode forceY
(GraphView.tsx lines 475-477). -/
def forceYTarget (n : SimNode) : ℝ :=
  if isUnassigned n.toNode then 0 else n.targetY.getD 0

/-- The strength accessor of the overview-mode forceY
(GraphView.tsx line 477). -/
def forceYStrength (showDifficulty : Bool) (n : SimNode) : ℝ :=
  if isUnassigned n.toNode then 0 else if showDifficulty then 0.2 else 0.05

/-- The radius accessor of the overview-mode radialUnassigned force
(GraphView.tsx lines 478-480). -/
def forceRadialUnassignedRadius (w h : ℝ) (n : SimNode) : ℝ :=
  if isUnassigned n.toNode then unassignedRadius w h else 0

/-- The strength accessor of the overview-mode radialUnassigned force
(GraphView.tsx line 480). -/
def forceRadialUnassignedStrength (n : SimNode) : ℝ :=
  if isUnassigned n.toNode then 0.8 else 0

/-- A touch point of a React Native gesture event. -/
structure Touch where
  pageX : ℝ
  pageY : ℝ

/-- The inter-touch distance helper (GraphView.tsx lines 32-37). -/
def getDistance (t1 t2 : Touch) : ℝ :=
  Real.sqrt ((t1.pageX - t2.pageX) * (t1.pageX - t2.pageX)
    + (t1.pageY - t2.pageY) * (t1.pageY - t2.pageY))

/-- getDistance applied to the first two entries of the touches array;
every call site guards on touches.length being two. -/
def getDistanceL : List Touch → ℝ
  | t1 :: t2 :: _ => getDistance t1 t2
  | _ => 0

/-- The props of the gesture controller that stay fixed during a
gesture: viewport size, the active tag and the angular-scale domain of
visible tag names. -/
structure GEnv where
  width : ℝ
  height : ℝ
  activeTag : Option String
  domain : List String

/-- The mutable state read and written by the PanResponder handlers
(GraphView.tsx lines 110-127): the view transform, the transform
baseline recorded at gesture start, the recorded inter-touch distance,
the dragged node (identified by its index in the simulation array), the
recorded drag start point, and the simulation node array. -/
structure GState where
  transform : Transform
  lastTransform : Transform
  lastDistance : Option ℝ
  dragging : Option ℕ
  dragStartPos : Option (ℝ × ℝ)
  simNodes : List SimNode

/-- The initial gesture state (GraphView.tsx lines 110-127): identity
transform and baseline, no recorded distance, no drag. -/
def initialGState (simNodes : List SimNode) : GState :=
  { transform := ⟨0, 0, 1⟩
    lastTransform := ⟨0, 0, 1⟩
    lastDistance := none
    dragging := none
    dragStartPos := none
    simNodes := simNodes }

/-- The touch events delivered to the PanResponder.  The move and
release events carry the cumulative gesture displacement
(gestureState.dx, gestureState.dy).  The terminate event models the
platform cancelling the touch stream; the PanResponder.create call in
GraphView.tsx (lines 240-361) registers no onPanResponderTerminate
handler, so that event runs no engine code. -/
inductive GEvent where
  | grant (touches : List Touch) (locationX locationY : ℝ)
  | move (touches : List Touch) (locationX locationY : ℝ) (dx dy : ℝ)
  | release (locationX locationY : ℝ) (dx dy : ℝ)
  | terminate

/-- The externally visible actions of a handler: semantic callbacks and
simulation commands. -/
inductive Effect where
  | nodeClick (i : ℕ)
  | tagClick (name : String)
  | backgroundClick
  | alphaTarget (v : ℝ)
  | restart
deriving DecidableEq

/-- Sets the fixed position of the i-th simulation node to its current
position (GraphView.tsx lines 256-257). -/
def fixAt (l : List SimNode) (i : ℕ) : List SimNode :=
  match l[i]? with
  | some n => l.set i { n with fx := some n.x, fy := some n.y }
  | none => l

/-- Sets the fixed position of the i-th simulation node to the given
graph-space point (GraphView.tsx lines 286-287). -/
def dragFixAt (l : List SimNode) (i : ℕ) (gx gy : ℝ) : List SimNode :=
  match l[i]? with
  | some n => l.set i { n with fx := some gx, fy := some gy }
  | none => l

/-- Clears the fixed position of the i-th simulation node
(GraphView.tsx lines 333-334). -/
def unfixAt (l : List SimNode) (i : ℕ) : List SimNode :=
  match l[i]? with
  | some n => l.set i { n with fx := none, fy := none }
  | none => l

/-- Truthiness of the lastDistance ref: null and zero are falsy
(GraphView.tsx line 344 tests !lastDistance.current). -/
def distTruthy : Option ℝ → Bool
  | none => false
  | some d => d ≠ 0

/-- One step of the gesture controller: the PanResponder handlers of
GraphView.tsx lines 240-361, as a pure transition from state and event
to new state plus emitted effects. -/
def step (env : GEnv) (s : GState) (e : GEvent) : GState × List Effect :=
  let cx := env.width / 2
  let cy := env.height / 2
  match e with
  | .grant touches lx ly =>
    match (if touches.length = 1
        then findNodeAt env.width env.height env.activeTag s.simNodes s.transform lx ly
        else none) with
    | some i =>
      ({ s with dragging := some i
                dragStartPos := some (lx, ly)
                simNodes := fixAt s.simNodes i },
       [.alphaTarget 0.3, .restart])
    | none =>
      ({ s with lastTransform := s.transform
                lastDistance := if touches.length = 2 then some (getDistanceL touches) else none },
       [])
  | .move touches lx ly dx dy =>
    match s.dragging with
    | some i =>
      let gx := (lx - cx - s.transform.x) / s.transform.k
      let gy := (ly - cy - s.transform.y) / s.transform.k
      ({ s with simNodes := dragFixAt s.simNodes i gx gy }, [.restart])
    | none =>
      if touches.length = 2 ∧ s.lastDistance = none then
        ({ s with lastDistance := some (getDistanceL touches)
                  lastTransform := s.transform }, [])
      else if touches.length = 1 ∧ s.lastDistance = none then
        ({ s with transform := ⟨s.lastTransform.x + dx, s.lastTransform.y + dy, s.lastTransform.k⟩ },
         [])
      else if touches.length = 2 then
        match s.lastDistance with
        | some d =>
          if d ≠ 0 then
            let dist := getDistanceL touches
            let newScale := max 0.5 (min 3 (s.lastTransform.k * (dist / d)))
            ({ s with transform := ⟨s.transform.x, s.transform.y, newScale⟩ }, [])
          else (s, [])
        | none => (s, [])
      else (s, [])
  | .release lx ly dx dy =>
    match s.dragging with
    | some i =>
      let dist := Real.sqrt (dx * dx + dy * dy)
      let clickEffects := if dist < 5 then [Effect.nodeClick i] else []
      ({ s with simNodes := unfixAt s.simNodes i
                dragging := none
                dragStartPos := none },
       clickEffects ++ [.alphaTarget 0])
    | none =>
      if |dx| < 5 ∧ |dy| < 5 ∧ distTruthy s.lastDistance = false then
        if truthy env.activeTag = false ∨ env.activeTag = some "UNASSIGNED" then
          match findTagAt env.width env.height env.domain s.transform lx ly with
          | some tagName => (s, [.tagClick tagName])
          | none =>
            ({ s with lastDistance := none, lastTransform := s.transform }, [.backgroundClick])
        else
          ({ s with lastDistance := none, lastTransform := s.transform }, [.backgroundClick])
      else
        ({ s with lastDistance := none, lastTransform := s.transform }, [])
  | .terminate => (s, [])

/-- Folds a step over one event, accumulating emitted effects. -/
def stepRun (env : GEnv) (acc : GState × List Effect) (e : GEvent) : GState × List Effect :=
  let r := step env acc.1 e
  (r.1, acc.2 ++ r.2)

/-- Runs the gesture controller over a whole event sequence. -/
def runEvents (env : GEnv) (s : GState) (events : List GEvent) : GState × List Effect :=
  events.foldl (stepRun env) (s, [])

end

/-- The band step is positive for a nonempty range. -/
theorem bandwidth_pos (n : ℕ) (r0 r1 : ℝ) (h : r0 < r1) : 0 < bandwidth n r0 r1 := by
  have hn : (0 : ℝ) < (max n 1 : ℕ) := by
    have : 1 ≤ max n 1 := le_max_right n 1
    exact_mod_cast Nat.lt_of_lt_of_le Nat.zero_lt_one this
  exact div_pos (by linarith) hn

/-- For a nonempty domain the d3 max-guard in the band step vanishes. -/
theorem bandwidth_eq (n : ℕ) (hn : 0 < n) (r0 r1 : ℝ) :
    bandwidth n r0 r1 = (r1 - r0) / n := by
  unfold bandwidth
  rw [Nat.max_eq_left hn]

/-- On a duplicate-free domain, the band scale maps the i-th domain
value to the start of the i-th band. -/
theorem scaleBand_getElem {α : Type} [DecidableEq α] (domain : List α) (hd : domain.Nodup)
    (r0 r1 : ℝ) (i : ℕ) (hi : i < domain.length) :
    scaleBand domain r0 r1 domain[i] = some (r0 + i * bandwidth domain.length r0 r1) := by
  unfold scaleBand
  have hfind : domain.findIdx? (fun a => a = domain[i]) = some i := by
    rw [List.findIdx?_eq_some_iff_getElem]
    refine ⟨hi, by simp, ?_⟩
    intro j hj
    simp only [Bool.not_eq_true, decide_eq_false_iff_not]
    intro h
    have := hd.getElem_inj_iff.1 h
    omega
  rw [hfind]
  rfl

/-- The n equal half-open bands of a nonempty range tile it: a point
lies in the range iff it lies in exactly one band. -/
theorem mem_band_iff (n : ℕ) (hn : 0 < n) (r0 r1 : ℝ) (hr : r0 < r1) (x : ℝ) :
    x ∈ Set.Ico r0 r1 ↔
      ∃! i : ℕ, i < n ∧
        x ∈ Set.Ico (r0 + i * bandwidth n r0 r1) (r0 + i * bandwidth n r0 r1 + bandwidth n r0 r1) := by
  rw [bandwidth_eq n hn]
  have hnR : (0 : ℝ) < n := by exact_mod_cast hn
  have hw : (0 : ℝ) < (r1 - r0) / n := div_pos (by linarith) hnR
  set w : ℝ := (r1 - r0) / n with hwdef
  have hnw : (n : ℝ) * w = r1 - r0 := by field_simp [hwdef]
  constructor
  · rintro ⟨hx0, hx1⟩
    have hxw : (0 : ℝ) ≤ (x - r0) / w := div_nonneg (by linarith) hw.le
    refine ⟨⌊(x - r0) / w⌋₊, ⟨?_, ?_, ?_⟩, ?_⟩
    · have hlt : (x - r0) / w < n := by
        rw [div_lt_iff₀ hw]
        linarith
      exact (Nat.floor_lt hxw).2 hlt
    · have h1 : (⌊(x - r0) / w⌋₊ : ℝ) ≤ (x - r0) / w := Nat.floor_le hxw
      have := (le_div_iff₀ hw).1 h1
      linarith
    · have h2 : (x - r0) / w < ⌊(x - r0) / w⌋₊ + 1 := Nat.lt_floor_add_one _
      have := (div_lt_iff₀ hw).1 h2
      nlinarith
    · rintro j ⟨hj, hj0, hj1⟩
      have hle : (j : ℝ) ≤ (x - r0) / w := by
        rw [le_div_iff₀ hw]
        linarith
      have hlt : (x - r0) / w < j + 1 := by
        rw [div_lt_iff₀ hw]
        nlinarith
      symm
      rw [Nat.floor_eq_iff hxw]
      exact ⟨hle, by exact_mod_cast hlt⟩
  · rintro ⟨i, ⟨hi, hx0, hx1⟩, _⟩
    constructor
    · have : (0 : ℝ) ≤ i * w := by positivity
      linarith
    · have hiR : (i : ℝ) + 1 ≤ n := by exact_mod_cast hi
      have : r0 + i * w + w ≤ r0 + n * w := by nlinarith
      linarith

/-- An in-order scan returns the i-th element when it satisfies the
predicate and no earlier element does. -/
theorem find?_eq_getElem_of {α : Type} (l : List α) (p : α → Bool) (i : ℕ) (hi : i < l.length)
    (hp : p l[i] = true) (hbefore : ∀ j, j < i → ∀ hj : j < l.length, p l[j] = false) :
    l.find? p = some l[i] := by
  induction l generalizing i with
  | nil => simp at hi
  | cons x xs ih =>
    rcases i with _ | j
    · simpa using List.find?_cons_of_pos _ (by simpa using hp)
    · have hx : p x = false := hbefore 0 (Nat.succ_pos j) (by simp)
      rw [List.find?_cons_of_neg _ (by simp [hx])]
      have hj : j < xs.length := by simpa using hi
      exact ih j hj (by simpa using hp)
        (fun m hm hmlen => by simpa using hbefore (m + 1) (by omega) (by simpa using hmlen))

/-- A reverse scan over the index range returns index i when i
matches and every later index fails. -/
theorem revRange_find?_eq_some (p : ℕ → Bool) (i : ℕ) (hp : p i = true) :
    ∀ n, i < n → (∀ j, i < j → j < n → p j = false) →
      (List.range n).reverse.find? p = some i := by
  intro n
  induction n with
  | zero => intro hi _; omega
  | succ m ih =>
    intro hi hafter
    rw [List.range_succ, List.reverse_append]
    simp only [List.reverse_cons, List.reverse_nil, List.nil_append, List.singleton_append]
    by_cases hcase : i = m
    · subst hcase
      exact List.find?_cons_of_pos _ hp
    · have hm : p m = false := hafter m (by omega) (by omega)
      rw [List.find?_cons_of_neg _ (by simp [hm])]
      exact ih (by omega) (fun j hj1 hj2 => hafter j hj1 (by omega))

/-- The radial band scale evaluated at any difficulty level: the band
start at the level's index. -/
theorem radialScale_eq (w h : ℝ) (d : Difficulty) :
    radialScale w h d = some (outerRadius w h * 0.2
      + (difficultyIndex d : ℝ) * (outerRadius w h * 0.8 / 3)) := by
  have hbw : bandwidth DIFFICULTY_LEVELS.length (outerRadius w h * 0.2) (outerRadius w h)
      = outerRadius w h * 0.8 / 3 := by
    rw [show DIFFICULTY_LEVELS.length = 3 from rfl, bandwidth_eq 3 (by norm_num)]
    ring
  cases d
  · rw [radialScale, show Difficulty.Easy = DIFFICULTY_LEVELS[0] from rfl,
      scaleBand_getElem _ (by decide) _ _ 0 (by decide), hbw]
    norm_num [difficultyIndex, DIFFICULTY_LEVELS]
  · rw [radialScale, show Difficulty.Medium = DIFFICULTY_LEVELS[1] from rfl,
      scaleBand_getElem _ (by decide) _ _ 1 (by decide), hbw]
    norm_num [difficultyIndex, DIFFICULTY_LEVELS]
  · rw [radialScale, show Difficulty.Hard = DIFFICULTY_LEVELS[2] from rfl,
      scaleBand_getElem _ (by decide) _ _ 2 (by decide), hbw]
    norm_num [difficultyIndex, DIFFICULTY_LEVELS]

/-- C2: the angular scale assigns the i-th visible tag (in list order)
the band starting at i * 2pi/n of width 2pi/n, the n bands partitioning
the angular range [0, 2pi) equally; the radial scale maps Easy, Medium,
Hard (in that order) to the starts of three equal bands partitioning
[0.2 * R, R), where R = min(viewportWidth, viewportHeight) / 2 - margin. -/
theorem angular_radial_scale_bands
    (domain : List String) (hd : domain.Nodup) (i : ℕ) (hi : i < domain.length)
    (w h : ℝ) (hR : 0 < min w h / 2 - margin w) :
    (angularScale domain domain[i] = some ((i : ℝ) * (2 * Real.pi / domain.length)) ∧
     bandwidth domain.length 0 (2 * Real.pi) = 2 * Real.pi / domain.length ∧
     (∀ θ : ℝ, θ ∈ Set.Ico (0 : ℝ) (2 * Real.pi) ↔
       ∃! j : ℕ, j < domain.length ∧
         θ ∈ Set.Ico ((j : ℝ) * (2 * Real.pi / domain.length))
           (((j : ℝ) + 1) * (2 * Real.pi / domain.length)))) ∧
    (radialScale w h .Easy = some ((min w h / 2 - margin w) * 0.2) ∧
     radialScale w h .Medium =
       some ((min w h / 2 - margin w) * 0.2 + (min w h / 2 - margin w) * 0.8 / 3) ∧
     radialScale w h .Hard =
       some ((min w h / 2 - margin w) * 0.2 + 2 * ((min w h / 2 - margin w) * 0.8 / 3)) ∧
     (∀ r : ℝ, r ∈ Set.Ico ((min w h / 2 - margin w) * 0.2) (min w h / 2 - margin w) ↔
       ∃! j : ℕ, j < 3 ∧
         r ∈ Set.Ico ((min w h / 2 - margin w) * 0.2
             + (j : ℝ) * ((min w h / 2 - margin w) * 0.8 / 3))
           ((min w h / 2 - margin w) * 0.2
             + ((j : ℝ) + 1) * ((min w h / 2 - margin w) * 0.8 / 3)))) := by
  have hn : 0 < domain.length := by omega
  have hpi : (0 : ℝ) < 2 * Real.pi := by have := Real.pi_pos; linarith
  have hRof : outerRadius w h = min w h / 2 - margin w := rfl
  constructor
  · refine ⟨?_, by rw [bandwidth_eq _ hn]; ring, ?_⟩
    · rw [angularScale, scaleBand_getElem domain hd _ _ i hi, bandwidth_eq _ hn]
      norm_num
    · intro θ
      have hmb := mem_band_iff domain.length hn 0 (2 * Real.pi) hpi θ
      have hset : ∀ j : ℕ,
          Set.Ico ((0 : ℝ) + (j : ℝ) * bandwidth domain.length 0 (2 * Real.pi))
              (0 + (j : ℝ) * bandwidth domain.length 0 (2 * Real.pi)
                + bandwidth domain.length 0 (2 * Real.pi))
            = Set.Ico ((j : ℝ) * (2 * Real.pi / domain.length))
              (((j : ℝ) + 1) * (2 * Real.pi / domain.length)) := by
        intro j
        rw [bandwidth_eq _ hn]
        ring_nf
      simpa only [hset] using hmb
  · have hlen : DIFFICULTY_LEVELS.length = 3 := rfl
    have hrr : (min w h / 2 - margin w) * 0.2 < min w h / 2 - margin w := by linarith
    have hbw : bandwidth DIFFICULTY_LEVELS.length ((min w h / 2 - margin w) * 0.2)
        (min w h / 2 - margin w) = (min w h / 2 - margin w) * 0.8 / 3 := by
      rw [hlen, bandwidth_eq 3 (by norm_num)]
      ring
    have hEasy := scaleBand_getElem DIFFICULTY_LEVELS (by decide)
      ((min w h / 2 - margin w) * 0.2) (min w h / 2 - margin w) 0 (by decide)
    have hMedium := scaleBand_getElem DIFFICULTY_LEVELS (by decide)
      ((min w h / 2 - margin w) * 0.2) (min w h / 2 - margin w) 1 (by decide)
    have hHard := scaleBand_getElem DIFFICULTY_LEVELS (by decide)
      ((min w h / 2 - margin w) * 0.2) (min w h / 2 - margin w) 2 (by decide)
    rw [hbw] at hEasy hMedium hHard
    refine ⟨?_, ?_, ?_, ?_⟩
    · rw [radialScale, hRof]
      rw [show Difficulty.Easy = DIFFICULTY_LEVELS[0] from rfl, hEasy]
      norm_num
    · rw [radialScale, hRof]
      rw [show Difficulty.Medium = DIFFICULTY_LEVELS[1] from rfl, hMedium]
      norm_num
    · rw [radialScale, hRof]
      rw [show Difficulty.Hard = DIFFICULTY_LEVELS[2] from rfl, hHard]
      norm_num
    · intro r
      have hmb := mem_band_iff 3 (by norm_num) ((min w h / 2 - margin w) * 0.2)
        (min w h / 2 - margin w) hrr r
      have hset : ∀ j : ℕ,
          Set.Ico ((min w h / 2 - margin w) * 0.2
              + (j : ℝ) * bandwidth 3 ((min w h / 2 - margin w) * 0.2) (min w h / 2 - margin w))
            ((min w h / 2 - margin w) * 0.2
              + (j : ℝ) * bandwidth 3 ((min w h / 2 - margin w) * 0.2) (min w h / 2 - margin w)
              + bandwidth 3 ((min w h / 2 - margin w) * 0.2) (min w h / 2 - margin w))
            = Set.Ico ((min w h / 2 - margin w) * 0.2
                + (j : ℝ) * ((min w h / 2 - margin w) * 0.8 / 3))
              ((min w h / 2 - margin w) * 0.2
                + ((j : ℝ) + 1) * ((min w h / 2 - margin w) * 0.8 / 3)) := by
        intro j
        rw [bandwidth_eq 3 (by norm_num)]
        ring_nf
      simpa only [hset] using hmb

/-- Witness for C2 at a concrete viewport and tag list. -/
theorem angular_radial_scale_bands_witness :
    angularScale ["A", "B"] "B" = some ((1 : ℝ) * (2 * Real.pi / 2)) := by
  have h := angular_radial_scale_bands ["A", "B"] (by decide) 1 (by decide) 400 800
    (by norm_num [margin, isMobile])
  simpa using h.1.1

/-- C3: the layout seeder gives every node with a visible non-empty
primary tag the target position (r cos(a - pi/2), r sin(a - pi/2)),
where a is the midpoint of the primary tag's angular band and r is the
midpoint of the node's difficulty radial band, or 60 percent of the
outer radius when difficulty display is suppressed; in the concrete
scenario of three tags A, B, C, one node tagged A with difficulty Easy
and a 400 x 800 viewport, the target angle is pi/3 and the target
radius is the midpoint 175/3 of the innermost (Easy) band. -/
theorem seeder_targetPosition
    (w h : ℝ) (showD isZoomed : Bool) (domain : List String) (hd : domain.Nodup)
    (unassigned : List Node) (node : Node) (rest : List String) (i : ℕ)
    (hi : i < domain.length) (htags : node.tags = domain[i] :: rest) (r1 r2 : ℝ) :
    ((seedNode w h showD isZoomed domain unassigned node r1 r2).targetX
        = some ((if showD
              then (min w h / 2 - margin w) * 0.2
                + ((difficultyIndex node.difficulty : ℝ) + 1 / 2)
                  * ((min w h / 2 - margin w) * 0.8 / 3)
              else (min w h / 2 - margin w) * 0.6)
            * Real.cos ((i : ℝ) * (2 * Real.pi / domain.length)
              + 2 * Real.pi / domain.length / 2 - Real.pi / 2)) ∧
      (seedNode w h showD isZoomed domain unassigned node r1 r2).targetY
        = some ((if showD
              then (min w h / 2 - margin w) * 0.2
                + ((difficultyIndex node.difficulty : ℝ) + 1 / 2)
                  * ((min w h / 2 - margin w) * 0.8 / 3)
              else (min w h / 2 - margin w) * 0.6)
            * Real.sin ((i : ℝ) * (2 * Real.pi / domain.length)
              + 2 * Real.pi / domain.length / 2 - Real.pi / 2))) ∧
    (∀ rand : ℕ → ℝ, ∃ sn : SimNode,
      initialNodes 400 800 true none
          [⟨"A", "#f43f5e"⟩, ⟨"B", "#ec4899"⟩, ⟨"C", "#d946ef"⟩] (fun _ => true)
          [{ id := "n1", title := "skill", tags := ["A"], difficulty := .Easy, links := [] }]
          rand = [sn] ∧
        sn.targetX = some ((175 / 3 : ℝ) * Real.cos (Real.pi / 3 - Real.pi / 2)) ∧
        sn.targetY = some ((175 / 3 : ℝ) * Real.sin (Real.pi / 3 - Real.pi / 2))) := by
  have hn : 0 < domain.length := by omega
  have hne : isUnassigned node = false := by simp [isUnassigned, htags]
  have hhead : node.tags.headD "" = domain[i] := by rw [htags]; rfl
  have hmain : ∀ (w' h' : ℝ) (sd iz : Bool) (dom : List String) (hd' : dom.Nodup)
      (un : List Node) (nd : Node) (rst : List String) (j : ℕ) (hj : j < dom.length)
      (ht : nd.tags = dom[j] :: rst) (a b : ℝ),
      (seedNode w' h' sd iz dom un nd a b).targetX
          = some ((if sd
                then (min w' h' / 2 - margin w') * 0.2
                  + ((difficultyIndex nd.difficulty : ℝ) + 1 / 2)
                    * ((min w' h' / 2 - margin w') * 0.8 / 3)
                else (min w' h' / 2 - margin w') * 0.6)
              * Real.cos ((j : ℝ) * (2 * Real.pi / dom.length)
                + 2 * Real.pi / dom.length / 2 - Real.pi / 2)) ∧
        (seedNode w' h' sd iz dom un nd a b).targetY
          = some ((if sd
                then (min w' h' / 2 - margin w') * 0.2
                  + ((difficultyIndex nd.difficulty : ℝ) + 1 / 2)
                    * ((min w' h' / 2 - margin w') * 0.8 / 3)
                else (min w' h' / 2 - margin w') * 0.6)
              * Real.sin ((j : ℝ) * (2 * Real.pi / dom.length)
                + 2 * Real.pi / dom.length / 2 - Real.pi / 2)) := by
    intro w' h' sd iz dom hd' un nd rst j hj ht a b
    have hn' : 0 < dom.length := by omega
    have hne' : isUnassigned nd = false := by simp [isUnassigned, ht]
    have hhead' : nd.tags.headD "" = dom[j] := by rw [ht]; rfl
    have hang : (angularScale dom (nd.tags.headD "")).getD 0
        + bandwidth dom.length 0 (2 * Real.pi) / 2
        = (j : ℝ) * (2 * Real.pi / dom.length) + 2 * Real.pi / dom.length / 2 := by
      rw [hhead', angularScale, scaleBand_getElem dom hd' _ _ j hj, Option.getD_some,
        bandwidth_eq _ hn']
      ring
    have hrad : (if sd
          then (radialScale w' h' nd.difficulty).getD 0
            + bandwidth DIFFICULTY_LEVELS.length (outerRadius w' h' * 0.2) (outerRadius w' h') / 2
          else outerRadius w' h' * 0.6)
        = (if sd
          then (min w' h' / 2 - margin w') * 0.2
            + ((difficultyIndex nd.difficulty : ℝ) + 1 / 2)
              * ((min w' h' / 2 - margin w') * 0.8 / 3)
          else (min w' h' / 2 - margin w') * 0.6) := by
      cases sd
      · simp [outerRadius]
      · rw [if_pos rfl, if_pos rfl, radialScale_eq, Option.getD_some,
          show DIFFICULTY_LEVELS.length = 3 from rfl, bandwidth_eq 3 (by norm_num),
          show outerRadius w' h' = min w' h' / 2 - margin w' from rfl]
        ring
    constructor
    · simp only [seedNode, hne', Bool.false_eq_true, if_false, hang, hrad]
    · simp only [seedNode, hne', Bool.false_eq_true, if_false, hang, hrad]
  refine ⟨hmain w h showD isZoomed domain hd unassigned node rest i hi htags r1 r2, ?_⟩
  intro rand
  refine ⟨seedNode 400 800 true false ["A", "B", "C"]
    [] { id := "n1", title := "skill", tags := ["A"], difficulty := .Easy, links := [] }
    (rand 0) (rand 1), ?_, ?_, ?_⟩
  · rfl
  · have := (hmain 400 800 true false ["A", "B", "C"] (by decide) []
      { id := "n1", title := "skill", tags := ["A"], difficulty := .Easy, links := [] }
      [] 0 (by decide) rfl (rand 0) (rand 1)).1
    rw [this]
    congr 1
    dsimp only
    have harg : (((0 : ℕ) : ℝ)) * (2 * Real.pi / (([("A" : String), "B", "C"].length : ℕ) : ℝ))
        + 2 * Real.pi / (([("A" : String), "B", "C"].length : ℕ) : ℝ) / 2 - Real.pi / 2
        = Real.pi / 3 - Real.pi / 2 := by
      simp only [List.length_cons, List.length_nil]
      push_cast
      ring
    rw [harg]
    have hval : (if true then (min (400 : ℝ) 800 / 2 - margin 400) * 0.2
          + ((difficultyIndex Difficulty.Easy : ℝ) + 1 / 2)
            * ((min (400 : ℝ) 800 / 2 - margin 400) * 0.8 / 3)
        else (min (400 : ℝ) 800 / 2 - margin 400) * 0.6) = 175 / 3 := by
      norm_num [margin, isMobile, difficultyIndex]
    rw [hval]
  · have := (hmain 400 800 true false ["A", "B", "C"] (by decide) []
      { id := "n1", title := "skill", tags := ["A"], difficulty := .Easy, links := [] }
      [] 0 (by decide) rfl (rand 0) (rand 1)).2
    rw [this]
    congr 1
    dsimp only
    have harg : (((0 : ℕ) : ℝ)) * (2 * Real.pi / (([("A" : String), "B", "C"].length : ℕ) : ℝ))
        + 2 * Real.pi / (([("A" : String), "B", "C"].length : ℕ) : ℝ) / 2 - Real.pi / 2
        = Real.pi / 3 - Real.pi / 2 := by
      simp only [List.length_cons, List.length_nil]
      push_cast
      ring
    rw [harg]
    have hval : (if true then (min (400 : ℝ) 800 / 2 - margin 400) * 0.2
          + ((difficultyIndex Difficulty.Easy : ℝ) + 1 / 2)
            * ((min (400 : ℝ) 800 / 2 - margin 400) * 0.8 / 3)
        else (min (400 : ℝ) 800 / 2 - margin 400) * 0.6) = 175 / 3 := by
      norm_num [margin, isMobile, difficultyIndex]
    rw [hval]

/-- Any single gesture step keeps the zoom scale of both the live
transform and the recorded baseline within [0.5, 3]. -/
theorem step_k_bounds (env : GEnv) (s : GState) (e : GEvent)
    (h1 : 0.5 ≤ s.transform.k) (h2 : s.transform.k ≤ 3)
    (h3 : 0.5 ≤ s.lastTransform.k) (h4 : s.lastTransform.k ≤ 3) :
    (0.5 ≤ (step env s e).1.transform.k ∧ (step env s e).1.transform.k ≤ 3) ∧
      0.5 ≤ (step env s e).1.lastTransform.k ∧ (step env s e).1.lastTransform.k ≤ 3 := by
  cases e with
  | grant touches lx ly =>
    simp only [step]
    split
    · exact ⟨⟨h1, h2⟩, h3, h4⟩
    · exact ⟨⟨h1, h2⟩, h1, h2⟩
  | move touches lx ly dx dy =>
    simp only [step]
    split
    · exact ⟨⟨h1, h2⟩, h3, h4⟩
    · split_ifs with hc1 hc2 hc3
      · exact ⟨⟨h1, h2⟩, h1, h2⟩
      · exact ⟨⟨h3, h4⟩, h3, h4⟩
      · split
        · split_ifs with hd0
          · refine ⟨⟨le_max_left _ _, ?_⟩, h3, h4⟩
            exact max_le (by norm_num) (min_le_left _ _)
          · exact ⟨⟨h1, h2⟩, h3, h4⟩
        · exact ⟨⟨h1, h2⟩, h3, h4⟩
      · exact ⟨⟨h1, h2⟩, h3, h4⟩
  | release lx ly dx dy =>
    simp only [step]
    split
    · exact ⟨⟨h1, h2⟩, h3, h4⟩
    · split_ifs with hc1 hc2
      · split
        · exact ⟨⟨h1, h2⟩, h3, h4⟩
        · exact ⟨⟨h1, h2⟩, h1, h2⟩
      · exact ⟨⟨h1, h2⟩, h1, h2⟩
      · exact ⟨⟨h1, h2⟩, h1, h2⟩
  | terminate => exact ⟨⟨h1, h2⟩, h3, h4⟩

/-- The gesture fold keeps the zoom scale within [0.5, 3] from any
state whose transform and baseline already satisfy the bounds. -/
theorem foldl_k_bounds (env : GEnv) (events : List GEvent) :
    ∀ p : GState × List Effect,
      0.5 ≤ p.1.transform.k → p.1.transform.k ≤ 3 →
      0.5 ≤ p.1.lastTransform.k → p.1.lastTransform.k ≤ 3 →
      (0.5 ≤ (events.foldl (stepRun env) p).1.transform.k ∧
        (events.foldl (stepRun env) p).1.transform.k ≤ 3) ∧
      0.5 ≤ (events.foldl (stepRun env) p).1.lastTransform.k ∧
        (events.foldl (stepRun env) p).1.lastTransform.k ≤ 3 := by
  induction events with
  | nil => intro p h1 h2 h3 h4; exact ⟨⟨h1, h2⟩, h3, h4⟩
  | cons e es ih =>
    intro p h1 h2 h3 h4
    rw [List.foldl_cons]
    have hb := step_k_bounds env p.1 e h1 h2 h3 h4
    exact ih (stepRun env p e) hb.1.1 hb.1.2 hb.2.1 hb.2.2

/-- C4: while pinching (two touches with a truthy recorded inter-touch
distance and no node drag), a move event sets the scale to the
baseline scale times the current-to-initial distance ratio clamped to
[0.5, 3] and leaves the pan offsets unchanged; and from the initial
transform (offset (0,0), scale 1), after any event sequence the scale
lies in [0.5, 3] and is strictly positive. -/
theorem pinch_zoom_clamped (env : GEnv) (s : GState) (t1 t2 : Touch) (lx ly dx dy d : ℝ)
    (hdrag : s.dragging = none) (hlast : s.lastDistance = some d) (hd0 : d ≠ 0) :
    ((step env s (.move [t1, t2] lx ly dx dy)).1.transform.k
        = max 0.5 (min 3 (s.lastTransform.k * (getDistance t1 t2 / d))) ∧
      (step env s (.move [t1, t2] lx ly dx dy)).1.transform.x = s.transform.x ∧
      (step env s (.move [t1, t2] lx ly dx dy)).1.transform.y = s.transform.y) ∧
    (∀ (simNodes : List SimNode) (events : List GEvent),
      0.5 ≤ (runEvents env (initialGState simNodes) events).1.transform.k ∧
        (runEvents env (initialGState simNodes) events).1.transform.k ≤ 3 ∧
        0 < (runEvents env (initialGState simNodes) events).1.transform.k) := by
  constructor
  · have hstep : step env s (.move [t1, t2] lx ly dx dy)
        = ({ s with transform :=
              ⟨s.transform.x, s.transform.y,
                max 0.5 (min 3 (s.lastTransform.k * (getDistance t1 t2 / d)))⟩ }, []) := by
      simp [step, hdrag, hlast, hd0, getDistanceL]
    rw [hstep]
    exact ⟨rfl, rfl, rfl⟩
  · intro simNodes events
    simp only [runEvents]
    have hb := foldl_k_bounds env events (initialGState simNodes, [])
      (by norm_num [initialGState]) (by norm_num [initialGState])
      (by norm_num [initialGState]) (by norm_num [initialGState])
    exact ⟨hb.1.1, hb.1.2, by linarith [hb.1.1]⟩

/-- Witness for C4 at a concrete pinch state. -/
theorem pinch_zoom_clamped_witness :
    (step ⟨400, 800, none, []⟩
        { transform := ⟨0, 0, 1⟩
          lastTransform := ⟨0, 0, 1⟩
          lastDistance := some 10
          dragging := none
          dragStartPos := none
          simNodes := [] }
        (.move [⟨0, 0⟩, ⟨0, 30⟩] 0 0 0 0)).1.transform.k
      = max 0.5 (min 3 ((1 : ℝ) * (getDistance ⟨0, 0⟩ ⟨0, 30⟩ / 10))) := by
  have h := (pinch_zoom_clamped ⟨400, 800, none, []⟩
    { transform := ⟨0, 0, 1⟩
      lastTransform := ⟨0, 0, 1⟩
      lastDistance := some 10
      dragging := none
      dragStartPos := none
      simNodes := [] }
    ⟨0, 0⟩ ⟨0, 30⟩ 0 0 0 0 10 rfl rfl (by norm_num)).1.1
  simpa using h

/-- C5: releasing a node drag always clears the node's fixed position
and sets the simulation's alpha target to zero (cooldown), and the
nodeClick callback fires for the dragged node exactly when the total
gesture displacement sqrt(dx^2 + dy^2) is below the 5 px tap
threshold. -/
theorem drag_release_click (env : GEnv) (s : GState) (lx ly dx dy : ℝ) (i : ℕ)
    (hdrag : s.dragging = some i) (hi : i < s.simNodes.length) :
    (step env s (.release lx ly dx dy)).1.dragging = none ∧
      (∃ n : SimNode, (step env s (.release lx ly dx dy)).1.simNodes[i]? = some n ∧
        n.fx = none ∧ n.fy = none) ∧
      Effect.alphaTarget 0 ∈ (step env s (.release lx ly dx dy)).2 ∧
      (Effect.nodeClick i ∈ (step env s (.release lx ly dx dy)).2 ↔
        Real.sqrt (dx * dx + dy * dy) < 5) := by
  obtain ⟨n, hn⟩ : ∃ n, s.simNodes[i]? = some n := by
    rcases List.getElem?_eq_some_iff.2 ⟨hi, rfl⟩ with h
    exact ⟨_, h⟩
  simp only [step, hdrag]
  refine ⟨trivial, ⟨{ n with fx := none, fy := none }, ?_, rfl, rfl⟩, ?_, ?_⟩
  · simp only [unfixAt, hn]
    exact List.getElem?_set_self hi
  · by_cases hlt : Real.sqrt (dx * dx + dy * dy) < 5 <;> simp [hlt]
  · by_cases hlt : Real.sqrt (dx * dx + dy * dy) < 5 <;> simp [hlt]

/-- Witness for C5: a 2 px horizontal drag-release on a node fixed at
the origin emits the node click. -/
theorem drag_release_click_witness :
    Effect.nodeClick 0 ∈ (step ⟨400, 800, none, []⟩
        { transform := ⟨0, 0, 1⟩
          lastTransform := ⟨0, 0, 1⟩
          lastDistance := none
          dragging := some 0
          dragStartPos := some (200, 400)
          simNodes := [⟨⟨"n1", "skill", [], .Easy, []⟩, 0, 0, none, none, none, none⟩] }
        (.release 202 400 2 0)).2 := by
  have h := (drag_release_click ⟨400, 800, none, []⟩
    { transform := ⟨0, 0, 1⟩
      lastTransform := ⟨0, 0, 1⟩
      lastDistance := none
      dragging := some 0
      dragStartPos := some (200, 400)
      simNodes := [⟨⟨"n1", "skill", [], .Easy, []⟩, 0, 0, none, none, none, none⟩] }
    202 400 2 0 0 rfl (by norm_num)).2.2.2
  refine h.2 ?_
  have : Real.sqrt ((2 : ℝ) * 2 + 0 * 0) = 2 := by
    rw [show (2 : ℝ) * 2 + 0 * 0 = 2 ^ 2 by ring]
    exact Real.sqrt_sq (by norm_num)
  rw [this]
  norm_num

/-- C1 counterexample: two nodes at the same simulation position;
hit-testing the rendered screen position of the rear node (index 0)
returns the front-most overlapping node (index 1), not the node whose
position was mapped. -/
theorem hit_test_left_inverse_counterexample :
    findNodeAt 400 800 none
        [⟨⟨"a", "s", [], .Easy, []⟩, 0, 0, none, none, none, none⟩,
          ⟨⟨"b", "s", [], .Easy, []⟩, 0, 0, none, none, none, none⟩]
        ⟨0, 0, 1⟩
        (renderPos 400 800 ⟨0, 0, 1⟩ ⟨⟨"a", "s", [], .Easy, []⟩, 0, 0, none, none, none, none⟩).1
        (renderPos 400 800 ⟨0, 0, 1⟩ ⟨⟨"a", "s", [], .Easy, []⟩, 0, 0, none, none, none, none⟩).2
      = some 1 ∧ (1 : ℕ) ≠ 0 := by
  refine ⟨?_, by norm_num⟩
  have hrange : (List.range 2).reverse = [1, 0] := rfl
  simp only [findNodeAt, renderPos, List.length_cons, List.length_nil, hrange]
  rw [List.find?_cons_of_pos]
  simp only [List.getElem?_cons_succ, List.getElem?_cons_zero]
  simp only [nodeHit, tagFilterPass, truthy, includesActive, Bool.and_eq_true,
    decide_eq_true_eq]
  refine ⟨rfl, ?_⟩
  norm_num [nodeRadius, isMobile]

/-- C1 amended: hit-testing the rendered screen position of a node
returns that node, provided the transform scale is nonzero, the node
passes the active-tag filter, and no node rendered above it (at a
larger array index) both passes the filter and lies within the hit
radius of the node's position. -/
theorem hit_test_left_inverse (w h : ℝ) (activeTag : Option String) (simNodes : List SimNode)
    (t : Transform) (i : ℕ) (hi : i < simNodes.length) (hk : t.k ≠ 0)
    (hfilter : tagFilterPass activeTag (simNodes[i]).tags = true)
    (hfront : ∀ j, i < j → ∀ hj : j < simNodes.length,
      nodeHit (simNodes[i]).x (simNodes[i]).y (nodeRadius w * 3) activeTag simNodes[j] = false) :
    findNodeAt w h activeTag simNodes t
      (renderPos w h t simNodes[i]).1 (renderPos w h t simNodes[i]).2 = some i := by
  have hgx : (w / 2 + t.x + t.k * (simNodes[i]).x - w / 2 - t.x) / t.k = (simNodes[i]).x := by
    field_simp
    ring
  have hgy : (h / 2 + t.y + t.k * (simNodes[i]).y - h / 2 - t.y) / t.k = (simNodes[i]).y := by
    field_simp
    ring
  have hr : (0 : ℝ) < nodeRadius w * 3 * (nodeRadius w * 3) := by
    unfold nodeRadius
    split <;> norm_num
  have hget : simNodes[i]? = some simNodes[i] := List.getElem?_eq_some_iff.2 ⟨hi, rfl⟩
  simp only [findNodeAt, renderPos, hgx, hgy]
  refine revRange_find?_eq_some _ i ?_ simNodes.length hi ?_
  · simp only [hget, nodeHit, Bool.and_eq_true, decide_eq_true_eq]
    exact ⟨hfilter, by simpa using hr⟩
  · intro j hij hj
    have hgetj : simNodes[j]? = some simNodes[j] := List.getElem?_eq_some_iff.2 ⟨hj, rfl⟩
    simp only [hgetj]
    exact hfront j hij hj

/-- Witness for the amended C1 at a single node and a concrete
transform. -/
theorem hit_test_left_inverse_witness :
    findNodeAt 400 800 none [⟨⟨"a", "s", [], .Easy, []⟩, 7, 9, none, none, none, none⟩]
        ⟨12, -3, 2⟩
        (renderPos 400 800 ⟨12, -3, 2⟩ ⟨⟨"a", "s", [], .Easy, []⟩, 7, 9, none, none, none, none⟩).1
        (renderPos 400 800 ⟨12, -3, 2⟩ ⟨⟨"a", "s", [], .Easy, []⟩, 7, 9, none, none, none, none⟩).2
      = some 0 :=
  hit_test_left_inverse 400 800 none
    [⟨⟨"a", "s", [], .Easy, []⟩, 7, 9, none, none, none, none⟩] ⟨12, -3, 2⟩ 0
    (by norm_num) (by norm_num) rfl (fun j hij hj => by simp at hj; omega)

/-- C10: with a truthy active tag set, the node hit-tester can only
return a node whose tag list includes the active tag; with the
UNASSIGNED sentinel active, it returns no node at any pointer location
whenever no node's tag list contains the sentinel string (which holds
for every node set the app passes in that mode, where all nodes are
unassigned and have empty tag lists). -/
theorem active_tag_filters_hits (w h : ℝ) (tg : String) (simNodes : List SimNode)
    (t : Transform) (htg : tg ≠ "") :
    (∀ x y i, findNodeAt w h (some tg) simNodes t x y = some i →
      ∃ hi : i < simNodes.length, tg ∈ (simNodes[i]).tags) ∧
    ((∀ n ∈ simNodes, "UNASSIGNED" ∉ n.tags) →
      ∀ x y, findNodeAt w h (some "UNASSIGNED") simNodes t x y = none) := by
  constructor
  · intro x y i hfound
    have hp := List.find?_some hfound
    rcases hcase : simNodes[i]? with _ | node
    · rw [hcase] at hp
      simp at hp
    · rw [hcase] at hp
      have hi : i < simNodes.length := List.getElem?_eq_some_iff.1 hcase |>.1
      refine ⟨hi, ?_⟩
      have hnode : simNodes[i] = node := by
        have := List.getElem?_eq_some_iff.1 hcase
        rcases this with ⟨_, hv⟩
        exact hv
      rw [hnode]
      simp only [nodeHit, Bool.and_eq_true] at hp
      have hpass := hp.1
      simp [tagFilterPass, truthy, includesActive, htg] at hpass
      exact hpass
  · intro hno x y
    apply List.find?_eq_none.2
    intro j hj
    rcases hcase : simNodes[j]? with _ | node
    · simp
    · simp only [hcase]
      have hmem : node ∈ simNodes := List.getElem?_eq_some_iff.1 hcase |>.2 ▸
        List.getElem_mem _
      have hnotmem : "UNASSIGNED" ∉ node.tags := hno node hmem
      simp [nodeHit, tagFilterPass, truthy, includesActive, hnotmem]

/-- Witness for C10: a node tagged X is returned only when X is the
active tag, and with the UNASSIGNED sentinel active an untagged node is
never hit. -/
theorem active_tag_filters_hits_witness :
    findNodeAt 400 800 (some "UNASSIGNED")
        [⟨⟨"a", "s", [], .Easy, []⟩, 0, 0, none, none, none, none⟩] ⟨0, 0, 1⟩ 200 400
      = none :=
  (active_tag_filters_hits 400 800 "UNASSIGNED"
      [⟨⟨"a", "s", [], .Easy, []⟩, 0, 0, none, none, none, none⟩] ⟨0, 0, 1⟩
      (by decide)).2
    (by intro n hn; simp at hn; simp [hn]) 200 400

/-- C9: an unassigned node (empty tags) is seeded on the outer ring of
radius unassignedRadius at the evenly spaced angle 2*pi*i/count (plus
per-axis jitter bounded by 10) with no target position; in overview
mode the positional x/y force strength is 0 for unassigned nodes while
the radialUnassigned force pulls unassigned nodes toward
unassignedRadius with strength 0.8, and has strength 0 and radius 0 for
assigned nodes. -/
theorem unassigned_ring_seeding (w h : ℝ) (showD isZoomed : Bool) (domain : List String)
    (unassigned : List Node) (node : Node) (i : ℕ) (hi : i < unassigned.length)
    (hnode : unassigned[i] = node) (hids : (unassigned.map Node.id).Nodup)
    (hun : isUnassigned node = true) (r1 r2 : ℝ) :
    ((seedNode w h showD isZoomed domain unassigned node r1 r2).targetX = none ∧
      (seedNode w h showD isZoomed domain unassigned node r1 r2).targetY = none) ∧
    ((seedNode w h showD isZoomed domain unassigned node r1 r2).x
        = unassignedRadius w h
            * Real.cos (2 * Real.pi * (i : ℝ) / (unassigned.length : ℝ) - Real.pi / 2)
          + (r1 - 0.5) * 20 ∧
      (seedNode w h showD isZoomed domain unassigned node r1 r2).y
        = unassignedRadius w h
            * Real.sin (2 * Real.pi * (i : ℝ) / (unassigned.length : ℝ) - Real.pi / 2)
          + (r2 - 0.5) * 20) ∧
    (0 ≤ r1 → r1 < 1 →
      |(seedNode w h showD isZoomed domain unassigned node r1 r2).x
          - unassignedRadius w h
            * Real.cos (2 * Real.pi * (i : ℝ) / (unassigned.length : ℝ) - Real.pi / 2)| ≤ 10) ∧
    (∀ sn : SimNode, isUnassigned sn.toNode = true →
      forceXStrength showD sn = 0 ∧ forceYStrength showD sn = 0 ∧
        forceRadialUnassignedRadius w h sn = unassignedRadius w h ∧
        forceRadialUnassignedStrength sn = 0.8) ∧
    (∀ sn : SimNode, isUnassigned sn.toNode = false →
      forceRadialUnassignedStrength sn = 0 ∧ forceRadialUnassignedRadius w h sn = 0) := by
  have hfindIdx? : unassigned.findIdx? (fun n => n.id = node.id) = some i := by
    rw [List.findIdx?_eq_some_iff_getElem]
    refine ⟨hi, by simp [hnode], ?_⟩
    intro j hji
    simp only [Bool.not_eq_true, decide_eq_false_iff_not]
    intro heq
    have hj : j < unassigned.length := by omega
    have hmapj : j < (unassigned.map Node.id).length := by simpa using hj
    have hmapi : i < (unassigned.map Node.id).length := by simpa using hi
    have h1 : (unassigned.map Node.id)[j] = (unassigned.map Node.id)[i] := by
      simp only [List.getElem_map]
      rw [heq, hnode]
    have := hids.getElem_inj_iff.1 h1
    omega
  have hfind : unassigned.findIdx (fun n => n.id = node.id) = i :=
    (List.findIdx?_eq_some_iff_findIdx_eq.1 hfindIdx?).2
  have hmax : max unassigned.length 1 = unassigned.length := Nat.max_eq_left (by omega)
  have hx : (seedNode w h showD isZoomed domain unassigned node r1 r2).x
      = unassignedRadius w h
          * Real.cos (2 * Real.pi * (i : ℝ) / (unassigned.length : ℝ) - Real.pi / 2)
        + (r1 - 0.5) * 20 := by
    simp only [seedNode, hun, if_true, hfind, hmax]
  have hy : (seedNode w h showD isZoomed domain unassigned node r1 r2).y
      = unassignedRadius w h
          * Real.sin (2 * Real.pi * (i : ℝ) / (unassigned.length : ℝ) - Real.pi / 2)
        + (r2 - 0.5) * 20 := by
    simp only [seedNode, hun, if_true, hfind, hmax]
  refine ⟨⟨?_, ?_⟩, ⟨hx, hy⟩, ?_, ?_, ?_⟩
  · simp only [seedNode, hun, if_true]
  · simp only [seedNode, hun, if_true]
  · intro h0 h1
    rw [hx]
    rw [show unassignedRadius w h
        * Real.cos (2 * Real.pi * (i : ℝ) / (unassigned.length : ℝ) - Real.pi / 2)
        + (r1 - 0.5) * 20
        - unassignedRadius w h
          * Real.cos (2 * Real.pi * (i : ℝ) / (unassigned.length : ℝ) - Real.pi / 2)
        = (r1 - 0.5) * 20 by ring]
    rw [abs_le]
    constructor <;> linarith
  · intro sn hsn
    exact ⟨by simp [forceXStrength, hsn], by simp [forceYStrength, hsn],
      by simp [forceRadialUnassignedRadius, hsn], by simp [forceRadialUnassignedStrength, hsn]⟩
  · intro sn hsn
    exact ⟨by simp [forceRadialUnassignedStrength, hsn],
      by simp [forceRadialUnassignedRadius, hsn]⟩

/-- Witness for C9 at a concrete unassigned node. -/
theorem unassigned_ring_seeding_witness :
    (seedNode 400 800 true false [] [⟨"a", "s", [], .Easy, []⟩]
        ⟨"a", "s", [], .Easy, []⟩ 0.25 0.25).targetX = none :=
  (unassigned_ring_seeding 400 800 true false [] [⟨"a", "s", [], .Easy, []⟩]
    ⟨"a", "s", [], .Easy, []⟩ 0 (by norm_num) rfl (by simp) rfl 0.25 0.25).1.1

/-- The normalized pointer angle of the sector hit-tester lies in
[0, 2*pi): atan2 is valued in (-pi, pi], so after adding pi/2 a single
conditional shift of 2*pi lands in the half-open turn. -/
theorem normAngle_mem (gy gx : ℝ) :
    (if atan2 gy gx + Real.pi / 2 < 0 then atan2 gy gx + Real.pi / 2 + 2 * Real.pi
      else atan2 gy gx + Real.pi / 2) ∈ Set.Ico (0 : ℝ) (2 * Real.pi) := by
  have harg := Complex.arg_mem_Ioc ({ re := gx, im := gy } : ℂ)
  rw [Set.mem_Ioc] at harg
  have hpi := Real.pi_pos
  have h1 : -Real.pi < atan2 gy gx := harg.1
  have h2 : atan2 gy gx ≤ Real.pi := harg.2
  rw [Set.mem_Ico]
  split_ifs with hc
  · constructor
    · linarith
    · linarith
  · push_neg at hc
    constructor
    · linarith
    · linarith

/-- The in-order band scan of the sector hit-tester returns the tag
whose band contains the normalized angle. -/
theorem bandScan_finds (domain : List String) (hd : domain.Nodup) (θ : ℝ)
    (i : ℕ) (hi : i < domain.length)
    (hmem : θ ∈ Set.Ico ((i : ℝ) * (2 * Real.pi / domain.length))
      (((i : ℝ) + 1) * (2 * Real.pi / domain.length))) :
    domain.find? (fun tagName =>
        decide ((angularScale domain tagName).getD 0 ≤ θ ∧
          θ < (angularScale domain tagName).getD 0 + bandwidth domain.length 0 (2 * Real.pi)))
      = some domain[i] := by
  have hn : 0 < domain.length := by omega
  have hpi := Real.pi_pos
  have hq : (0 : ℝ) < 2 * Real.pi / domain.length := by
    apply div_pos (by linarith)
    exact_mod_cast hn
  have hbw : bandwidth domain.length 0 (2 * Real.pi) = 2 * Real.pi / domain.length := by
    rw [bandwidth_eq _ hn]
    ring
  rw [Set.mem_Ico] at hmem
  apply find?_eq_getElem_of domain _ i hi
  · simp only [angularScale, scaleBand_getElem domain hd _ _ i hi, Option.getD_some, hbw,
      decide_eq_true_eq]
    constructor
    · have := hmem.1
      linarith
    · have := hmem.2
      have hexp : ((i : ℝ) + 1) * (2 * Real.pi / domain.length)
          = (i : ℝ) * (2 * Real.pi / domain.length) + 2 * Real.pi / domain.length := by ring
      rw [hexp] at this
      linarith
  · intro j hj hjlen
    simp only [angularScale, scaleBand_getElem domain hd _ _ j hjlen, Option.getD_some, hbw,
      decide_eq_false_iff_not, not_and, not_lt]
    intro _
    have hji : ((j : ℝ) + 1) ≤ (i : ℝ) := by exact_mod_cast hj
    have hmul : ((j : ℝ) + 1) * (2 * Real.pi / domain.length)
        ≤ (i : ℝ) * (2 * Real.pi / domain.length) :=
      mul_le_mul_of_nonneg_right hji hq.le
    nlinarith [hmem.1]

/-- C8: the sector hit-tester inverse-transforms the pointer into graph
space, takes its polar form with the angle atan2 + pi/2 normalized into
[0, 2*pi), returns no match when the radius exceeds the sector outer
radius or the visible tag set is empty, and otherwise returns the
visible tag whose angular band contains the normalized angle. -/
theorem findTagAt_polar (w h : ℝ) (domain : List String) (hd : domain.Nodup)
    (t : Transform) (x y : ℝ) :
    (Real.sqrt (((x - w / 2 - t.x) / t.k) * ((x - w / 2 - t.x) / t.k)
        + ((y - h / 2 - t.y) / t.k) * ((y - h / 2 - t.y) / t.k)) > outerRadius w h →
      findTagAt w h domain t x y = none) ∧
    (domain = [] → findTagAt w h domain t x y = none) ∧
    (if atan2 ((y - h / 2 - t.y) / t.k) ((x - w / 2 - t.x) / t.k) + Real.pi / 2 < 0
        then atan2 ((y - h / 2 - t.y) / t.k) ((x - w / 2 - t.x) / t.k) + Real.pi / 2
          + 2 * Real.pi
        else atan2 ((y - h / 2 - t.y) / t.k) ((x - w / 2 - t.x) / t.k) + Real.pi / 2)
      ∈ Set.Ico (0 : ℝ) (2 * Real.pi) ∧
    (Real.sqrt (((x - w / 2 - t.x) / t.k) * ((x - w / 2 - t.x) / t.k)
        + ((y - h / 2 - t.y) / t.k) * ((y - h / 2 - t.y) / t.k)) ≤ outerRadius w h →
      (∀ i, ∀ hi : i < domain.length,
        (if atan2 ((y - h / 2 - t.y) / t.k) ((x - w / 2 - t.x) / t.k) + Real.pi / 2 < 0
            then atan2 ((y - h / 2 - t.y) / t.k) ((x - w / 2 - t.x) / t.k) + Real.pi / 2
              + 2 * Real.pi
            else atan2 ((y - h / 2 - t.y) / t.k) ((x - w / 2 - t.x) / t.k) + Real.pi / 2)
          ∈ Set.Ico ((i : ℝ) * (2 * Real.pi / domain.length))
            (((i : ℝ) + 1) * (2 * Real.pi / domain.length)) →
        findTagAt w h domain t x y = some domain[i]) ∧
      (domain ≠ [] → ∃ i, ∃ hi : i < domain.length,
        (if atan2 ((y - h / 2 - t.y) / t.k) ((x - w / 2 - t.x) / t.k) + Real.pi / 2 < 0
            then atan2 ((y - h / 2 - t.y) / t.k) ((x - w / 2 - t.x) / t.k) + Real.pi / 2
              + 2 * Real.pi
            else atan2 ((y - h / 2 - t.y) / t.k) ((x - w / 2 - t.x) / t.k) + Real.pi / 2)
          ∈ Set.Ico ((i : ℝ) * (2 * Real.pi / domain.length))
            (((i : ℝ) + 1) * (2 * Real.pi / domain.length)) ∧
        findTagAt w h domain t x y = some domain[i])) := by
  have hpi := Real.pi_pos
  refine ⟨?_, ?_, normAngle_mem _ _, ?_⟩
  · intro hr
    simp only [findTagAt]
    rw [if_pos hr]
  · intro hdom
    subst hdom
    simp only [findTagAt, List.find?_nil]
    split
    · rfl
    · rfl
  · intro hr
    constructor
    · intro i hi hmem
      simp only [findTagAt]
      rw [if_neg (not_lt.2 hr)]
      exact bandScan_finds domain hd _ i hi hmem
    · intro hdom
      have hn : 0 < domain.length := List.length_pos.2 hdom
      have hnorm := normAngle_mem ((y - h / 2 - t.y) / t.k) ((x - w / 2 - t.x) / t.k)
      have hex := (mem_band_iff domain.length hn 0 (2 * Real.pi) (by linarith) _).1 hnorm
      obtain ⟨i, ⟨hi, hband⟩, _⟩ := hex
      have hbw : bandwidth domain.length 0 (2 * Real.pi) = 2 * Real.pi / domain.length := by
        rw [bandwidth_eq _ hn]
        ring
      have hband' : (if atan2 ((y - h / 2 - t.y) / t.k) ((x - w / 2 - t.x) / t.k)
              + Real.pi / 2 < 0
            then atan2 ((y - h / 2 - t.y) / t.k) ((x - w / 2 - t.x) / t.k) + Real.pi / 2
              + 2 * Real.pi
            else atan2 ((y - h / 2 - t.y) / t.k) ((x - w / 2 - t.x) / t.k) + Real.pi / 2)
          ∈ Set.Ico ((i : ℝ) * (2 * Real.pi / domain.length))
            (((i : ℝ) + 1) * (2 * Real.pi / domain.length)) := by
        rw [hbw] at hband
        rw [Set.mem_Ico] at hband ⊢
        constructor
        · have := hband.1
          linarith
        · have := hband.2
          have hexp : ((i : ℝ) + 1) * (2 * Real.pi / domain.length)
              = (i : ℝ) * (2 * Real.pi / domain.length) + 2 * Real.pi / domain.length := by
            ring
          rw [hexp]
          linarith
      refine ⟨i, hi, hband', ?_⟩
      simp only [findTagAt]
      rw [if_neg (not_lt.2 hr)]
      exact bandScan_finds domain hd _ i hi hband'

/-- Witness for C8: a tap at the viewport center with the identity
transform and one visible tag hits that tag's sector. -/
theorem findTagAt_polar_witness :
    findTagAt 400 800 ["A"] ⟨0, 0, 1⟩ 200 400 = some "A" := by
  have h := findTagAt_polar 400 800 ["A"] (by decide) ⟨0, 0, 1⟩ 200 400
  dsimp only at h
  have hzero : ((200 : ℝ) - 400 / 2 - 0) / 1 = 0 := by norm_num
  have hzero2 : ((400 : ℝ) - 800 / 2 - 0) / 1 = 0 := by norm_num
  rw [hzero, hzero2] at h
  have hatan : atan2 (0 : ℝ) 0 = 0 := by
    unfold atan2
    rw [show ({ re := (0 : ℝ), im := (0 : ℝ) } : ℂ) = 0 from by simp [Complex.ext_iff]]
    exact Complex.arg_zero
  rw [hatan] at h
  have hpi := Real.pi_pos
  have hr : Real.sqrt ((0 : ℝ) * 0 + 0 * 0) ≤ outerRadius 400 800 := by
    rw [show ((0 : ℝ) * 0 + 0 * 0) = 0 by norm_num, Real.sqrt_zero]
    norm_num [outerRadius, margin, isMobile]
  have hmem : (if (0 : ℝ) + Real.pi / 2 < 0 then (0 : ℝ) + Real.pi / 2 + 2 * Real.pi
        else (0 : ℝ) + Real.pi / 2)
      ∈ Set.Ico (((0 : ℕ) : ℝ) * (2 * Real.pi / ((["A"] : List String).length : ℝ)))
        ((((0 : ℕ) : ℝ) + 1) * (2 * Real.pi / ((["A"] : List String).length : ℝ))) := by
    rw [if_neg (by linarith)]
    rw [Set.mem_Ico]
    constructor
    · norm_num
      linarith
    · norm_num
      linarith
  have hres := (h.2.2.2 hr).1 0 (by norm_num) hmem
  simpa using hres

/-- With no visible tags the sector hit-tester matches nothing. -/
theorem findTagAt_nil (w h : ℝ) (t : Transform) (x y : ℝ) :
    findTagAt w h [] t x y = none := by
  simp only [findTagAt, List.find?_nil]
  split
  · rfl
  · rfl

/-- C7: the PanResponder.create call registers no
onPanResponderTerminate handler, so a platform cancellation of the
touch stream runs no cleanup: after a grant that grabbed a node, a
terminate event leaves the controller in the dragging state with the
node's fixed position still set, contradicting the specified release of
the drag lock. -/
theorem terminate_leaves_drag_locked :
    (runEvents ⟨400, 800, none, []⟩
        (initialGState [⟨⟨"a", "s", [], .Easy, []⟩, 0, 0, none, none, none, none⟩])
        [.grant [⟨200, 400⟩] 200 400, .terminate]).1.dragging = some 0 ∧
      (runEvents ⟨400, 800, none, []⟩
        (initialGState [⟨⟨"a", "s", [], .Easy, []⟩, 0, 0, none, none, none, none⟩])
        [.grant [⟨200, 400⟩] 200 400, .terminate]).1.simNodes
        = [⟨⟨"a", "s", [], .Easy, []⟩, 0, 0, some 0, some 0, none, none⟩] := by
  have hfind : findNodeAt 400 800 none
      [⟨⟨"a", "s", [], .Easy, []⟩, 0, 0, none, none, none, none⟩] ⟨0, 0, 1⟩ 200 400
      = some 0 := by
    have hrange : (List.range 1).reverse = [0] := rfl
    simp only [findNodeAt, List.length_cons, List.length_nil, hrange]
    rw [List.find?_cons_of_pos]
    simp only [List.getElem?_cons_zero]
    simp only [nodeHit, tagFilterPass, truthy, includesActive, Bool.and_eq_true,
      decide_eq_true_eq]
    refine ⟨rfl, ?_⟩
    norm_num [nodeRadius, isMobile]
  simp only [runEvents, List.foldl_cons, List.foldl_nil, stepRun, step, initialGState]
  simp only [List.length_cons, List.length_nil, reduceIte, hfind]
  simp only [fixAt, List.getElem?_cons_zero, List.set_cons_zero]
  exact ⟨trivial, trivial⟩

/-- C6 counterexample: a single-touch gesture moving 3 px (below the
5 px tap threshold) over empty space emits exactly one backgroundClick
but does change the view transform: the pan branch applies the raw
delta on every move with no threshold, leaving offsetX = 3. -/
theorem background_tap_counterexample :
    (runEvents ⟨400, 800, none, []⟩ (initialGState [])
        [.grant [⟨200, 400⟩] 200 400, .move [⟨203, 400⟩] 203 400 3 0,
          .release 203 400 3 0]).2
      = [Effect.backgroundClick] ∧
    (runEvents ⟨400, 800, none, []⟩ (initialGState [])
        [.grant [⟨200, 400⟩] 200 400, .move [⟨203, 400⟩] 203 400 3 0,
          .release 203 400 3 0]).1.transform.x = 3 ∧
    (3 : ℝ) ≠ 0 := by
  have hfind : findNodeAt 400 800 none [] ⟨0, 0, 1⟩ 200 400 = none := rfl
  have habs : |(3 : ℝ)| < 5 ∧ |(0 : ℝ)| < 5 ∧ distTruthy none = false := by
    refine ⟨by rw [abs_of_pos] <;> norm_num, by rw [abs_of_nonneg] <;> norm_num, rfl⟩
  have hgrant : stepRun ⟨400, 800, none, []⟩
      ((⟨⟨0, 0, 1⟩, ⟨0, 0, 1⟩, none, none, none, []⟩ : GState), ([] : List Effect))
      (.grant [⟨200, 400⟩] 200 400)
      = ((⟨⟨0, 0, 1⟩, ⟨0, 0, 1⟩, none, none, none, []⟩ : GState), ([] : List Effect)) := by
    simp only [stepRun, step]
    norm_num [hfind]
  have hmove : stepRun ⟨400, 800, none, []⟩
      ((⟨⟨0, 0, 1⟩, ⟨0, 0, 1⟩, none, none, none, []⟩ : GState), ([] : List Effect))
      (.move [⟨203, 400⟩] 203 400 3 0)
      = ((⟨⟨3, 0, 1⟩, ⟨0, 0, 1⟩, none, none, none, []⟩ : GState), ([] : List Effect)) := by
    simp only [stepRun, step]
    norm_num
  have hrel : stepRun ⟨400, 800, none, []⟩
      ((⟨⟨3, 0, 1⟩, ⟨0, 0, 1⟩, none, none, none, []⟩ : GState), ([] : List Effect))
      (.release 203 400 3 0)
      = ((⟨⟨3, 0, 1⟩, ⟨3, 0, 1⟩, none, none, none, []⟩ : GState),
          [Effect.backgroundClick]) := by
    simp only [stepRun, step]
    rw [if_pos habs]
    have htr : truthy none = false := rfl
    rw [if_pos (Or.inl htr)]
    rw [findTagAt_nil]
    rfl
  have hinit : initialGState ([] : List SimNode)
      = (⟨⟨0, 0, 1⟩, ⟨0, 0, 1⟩, none, none, none, []⟩ : GState) := rfl
  simp only [runEvents, List.foldl_cons, List.foldl_nil, hinit]
  rw [hgrant, hmove, hrel]
  exact ⟨rfl, rfl, by norm_num⟩

/-- Folding single-touch move events over a non-dragging state with no
recorded inter-touch distance pans on every move by the raw delta from
the baseline transform, emits no effects, and leaves everything else
unchanged. -/
theorem foldMoves_pan (env : GEnv) (moves : List (Touch × ℝ × ℝ × ℝ × ℝ)) :
    ∀ (s : GState) (effs : List Effect), s.dragging = none → s.lastDistance = none →
      ((moves.map fun m => GEvent.move [m.1] m.2.1 m.2.2.1 m.2.2.2.1 m.2.2.2.2).foldl
          (stepRun env) (s, effs)).1.dragging = none ∧
      ((moves.map fun m => GEvent.move [m.1] m.2.1 m.2.2.1 m.2.2.2.1 m.2.2.2.2).foldl
          (stepRun env) (s, effs)).1.lastDistance = none ∧
      ((moves.map fun m => GEvent.move [m.1] m.2.1 m.2.2.1 m.2.2.2.1 m.2.2.2.2).foldl
          (stepRun env) (s, effs)).1.lastTransform = s.lastTransform ∧
      ((moves.map fun m => GEvent.move [m.1] m.2.1 m.2.2.1 m.2.2.2.1 m.2.2.2.2).foldl
          (stepRun env) (s, effs)).1.simNodes = s.simNodes ∧
      ((moves.map fun m => GEvent.move [m.1] m.2.1 m.2.2.1 m.2.2.2.1 m.2.2.2.2).foldl
          (stepRun env) (s, effs)).1.transform
        = (match moves.getLast? with
          | none => s.transform
          | some m => ⟨s.lastTransform.x + m.2.2.2.1, s.lastTransform.y + m.2.2.2.2,
              s.lastTransform.k⟩) ∧
      ((moves.map fun m => GEvent.move [m.1] m.2.1 m.2.2.1 m.2.2.2.1 m.2.2.2.2).foldl
          (stepRun env) (s, effs)).2 = effs := by
  induction moves with
  | nil =>
    intro s effs h1 h2
    simp only [List.map_nil, List.foldl_nil]
    exact ⟨h1, h2, trivial, trivial, rfl, trivial⟩
  | cons m ms ih =>
    intro s effs hdrag hlast
    rw [List.map_cons, List.foldl_cons]
    have hstep : stepRun env (s, effs) (GEvent.move [m.1] m.2.1 m.2.2.1 m.2.2.2.1 m.2.2.2.2)
        = ({ s with transform := ⟨s.lastTransform.x + m.2.2.2.1,
              s.lastTransform.y + m.2.2.2.2, s.lastTransform.k⟩ }, effs) := by
      simp only [stepRun, step, hdrag, hlast]
      simp only [List.length_cons, List.length_nil]
      norm_num
    rw [hstep]
    have hres := ih { s with transform := ⟨s.lastTransform.x + m.2.2.2.1,
        s.lastTransform.y + m.2.2.2.2, s.lastTransform.k⟩ } effs hdrag hlast
    refine ⟨hres.1, hres.2.1, hres.2.2.1, hres.2.2.2.1, ?_, hres.2.2.2.2.2⟩
    rw [hres.2.2.2.2.1]
    cases ms with
    | nil => rfl
    | cons m2 ms2 => rfl

/-- C6 amended: a single-touch gesture (down, any sequence of
single-touch moves, up with final displacement below the 5 px
threshold on both axes) that hits no node at the down point and no
visible sector at the up point emits exactly one backgroundClick; the
zoom scale is unchanged, but the pan offsets are updated on every move
by the raw screen delta (not scaled by zoom, with no threshold), so the
gesture leaves the transform panned by the last move's cumulative
delta. -/
theorem background_tap (env : GEnv) (s0 : GState)
    (hdrag : s0.dragging = none) (hlast : s0.lastDistance = none)
    (gtouch : Touch) (glx gly : ℝ)
    (hnohit : findNodeAt env.width env.height env.activeTag s0.simNodes s0.transform glx gly
      = none)
    (moves : List (Touch × ℝ × ℝ × ℝ × ℝ)) (rlx rly rdx rdy : ℝ)
    (hrdx : |rdx| < 5) (hrdy : |rdy| < 5)
    (hnotag : truthy env.activeTag = false ∨ env.activeTag = some "UNASSIGNED")
    (hnosector : findTagAt env.width env.height env.domain
      (match moves.getLast? with
        | none => s0.transform
        | some m => ⟨s0.transform.x + m.2.2.2.1, s0.transform.y + m.2.2.2.2, s0.transform.k⟩)
      rlx rly = none) :
    (runEvents env s0 (GEvent.grant [gtouch] glx gly ::
        ((moves.map fun m => GEvent.move [m.1] m.2.1 m.2.2.1 m.2.2.2.1 m.2.2.2.2)
          ++ [GEvent.release rlx rly rdx rdy]))).2 = [Effect.backgroundClick] ∧
    (runEvents env s0 (GEvent.grant [gtouch] glx gly ::
        ((moves.map fun m => GEvent.move [m.1] m.2.1 m.2.2.1 m.2.2.2.1 m.2.2.2.2)
          ++ [GEvent.release rlx rly rdx rdy]))).1.transform
      = (match moves.getLast? with
        | none => s0.transform
        | some m => ⟨s0.transform.x + m.2.2.2.1, s0.transform.y + m.2.2.2.2,
            s0.transform.k⟩) := by
  have hgrant : stepRun env (s0, []) (GEvent.grant [gtouch] glx gly)
      = ({ s0 with lastTransform := s0.transform, lastDistance := none }, []) := by
    simp only [stepRun, step]
    simp only [List.length_cons, List.length_nil]
    norm_num [hnohit]
  simp only [runEvents, List.foldl_cons, List.foldl_append]
  rw [hgrant]
  have hmid := foldMoves_pan env moves
    { s0 with lastTransform := s0.transform, lastDistance := none } [] hdrag rfl
  obtain ⟨hm1, hm2, hm3, hm4, hm5, hm6⟩ := hmid
  set smid := ((moves.map fun m => GEvent.move [m.1] m.2.1 m.2.2.1 m.2.2.2.1 m.2.2.2.2).foldl
    (stepRun env) ({ s0 with lastTransform := s0.transform, lastDistance := none }, []))
  have hrel : stepRun env smid (GEvent.release rlx rly rdx rdy)
      = ({ smid.1 with lastDistance := none, lastTransform := smid.1.transform },
          smid.2 ++ [Effect.backgroundClick]) := by
    simp only [stepRun, step, hm1]
    rw [if_pos ⟨hrdx, hrdy, by rw [hm2]; rfl⟩]
    rcases hnotag with hn | hn
    · rw [if_pos (Or.inl hn)]
      rw [show smid.1.transform = (match moves.getLast? with
          | none => s0.transform
          | some m => ⟨s0.transform.x + m.2.2.2.1, s0.transform.y + m.2.2.2.2,
              s0.transform.k⟩) from hm5, hnosector]
    · rw [if_pos (Or.inr hn)]
      rw [show smid.1.transform = (match moves.getLast? with
          | none => s0.transform
          | some m => ⟨s0.transform.x + m.2.2.2.1, s0.transform.y + m.2.2.2.2,
              s0.transform.k⟩) from hm5, hnosector]
  rw [hrel]
  constructor
  · rw [hm6]
    rfl
  · exact hm5

/-- Witness for the amended C6: a pure down-up tap over empty space
with no visible sectors emits one backgroundClick and leaves the
transform untouched. -/
theorem background_tap_witness :
    (runEvents ⟨400, 800, none, []⟩ (initialGState [])
        (GEvent.grant [⟨200, 400⟩] 200 400 ::
          (([] : List (Touch × ℝ × ℝ × ℝ × ℝ)).map
              (fun m => GEvent.move [m.1] m.2.1 m.2.2.1 m.2.2.2.1 m.2.2.2.2)
            ++ [GEvent.release 200 400 0 0]))).2 = [Effect.backgroundClick] := by
  have h := background_tap ⟨400, 800, none, []⟩ (initialGState []) rfl rfl
    ⟨200, 400⟩ 200 400 rfl [] 200 400 0 0
    (by rw [abs_of_nonneg] <;> norm_num) (by rw [abs_of_nonneg] <;> norm_num)
    (Or.inl rfl) (findTagAt_nil _ _ _ _ _)
  exact h.1

/-- Witness for C3 at a concrete node, tag list and viewport. -/
theorem seeder_targetPosition_witness :
    (seedNode 400 800 true false ["A", "B", "C"] []
        { id := "n1", title := "skill", tags := ["A"], difficulty := .Easy, links := [] }
        0 0).targetX
      = some ((if true
            then (min (400 : ℝ) 800 / 2 - margin 400) * 0.2
              + ((difficultyIndex Difficulty.Easy : ℝ) + 1 / 2)
                * ((min (400 : ℝ) 800 / 2 - margin 400) * 0.8 / 3)
            else (min (400 : ℝ) 800 / 2 - margin 400) * 0.6)
          * Real.cos ((((0 : ℕ)) : ℝ) * (2 * Real.pi / ([("A" : String), "B", "C"].length : ℝ))
            + 2 * Real.pi / ([("A" : String), "B", "C"].length : ℝ) / 2 - Real.pi / 2)) :=
  (seeder_targetPosition 400 800 true false ["A", "B", "C"] (by decide) []
    { id := "n1", title := "skill", tags := ["A"], difficulty := .Easy, links := [] }
    [] 0 (by decide) rfl 0 0).1.1
